import Mathlib

/-!
Verification of the epilepsy pre-seizure web application core logic.

This file gives a shallow embedding in Lean 4 of the pure logic of the
repository's route handlers and validation helpers:

* `validate_time_format` — model of `utils/helpers.py::validate_time_format`
  (which is `datetime.strptime(s, "%H:%M")`); the CPython `_strptime`
  matcher for that format is the anchored regex
  `(2[0-3]|[0-1]\d|\d):([0-5]\d|\d)` with full-consumption check.
* `schedule_medication` / `update_medication` — `routes/medication.py`.
* `log_seizure` / `get_progress` — `routes/progress.py`.
* `book_appointment` — `routes/appointments.py`.
* `predict_seizure` — `routes/predict.py`.

Modelling conventions: JSON request bodies become structures of `Option`
fields (a `none` field means the key is absent); Python strings are Lean
`String`s manipulated through explicit character-list primitives (`strip`,
`lower`, `strLe`, `listHasSub`) that mirror `str.strip`, `str.lower`,
lexicographic `<=` on code points, and the `in` substring test; Python
floats are modelled as rationals; `datetime.strptime("%Y-%m-%d")` and
`datetime.now()` are abstracted into a date-valuation parameter
`pd : String → Option Int` (day number) and a `today : Int` parameter;
the scikit-learn model and scaler are opaque function parameters.
HTTP responses are modelled as a status code paired with the new store
contents (and, for the prediction route, a structured body).
-/

namespace Seizure

/-! ### Character/string primitives mirroring the Python built-ins used -/

/-- Whitespace characters removed by Python `str.strip()` (ASCII subset). -/
def isSpace (c : Char) : Bool :=
  c.toNat = 32 || c.toNat = 9 || c.toNat = 10 || c.toNat = 13 || c.toNat = 11 || c.toNat = 12

/-- Model of Python `str.strip()`: drop whitespace from both ends. -/
def strip (s : String) : String :=
  ⟨((s.toList.dropWhile isSpace).reverse.dropWhile isSpace).reverse⟩

/-- ASCII lower-casing of one character (model of `str.lower` per char). -/
def lowerChar (c : Char) : Char :=
  if 65 ≤ c.toNat ∧ c.toNat ≤ 90 then Char.ofNat (c.toNat + 32) else c

/-- Model of Python `str.lower()` (ASCII-faithful). -/
def lower (s : String) : String :=
  ⟨s.toList.map lowerChar⟩

/-- Lexicographic order on code-point lists, as Python compares strings. -/
def charsLe : List Char → List Char → Bool
  | [], _ => true
  | _ :: _, [] => false
  | a :: as, b :: bs =>
    if a.toNat < b.toNat then true
    else if b.toNat < a.toNat then false
    else charsLe as bs

/-- Model of Python string `<=`. -/
def strLe (a b : String) : Bool :=
  charsLe a.toList b.toList

/-- The relation `strLe` in `Prop` form, decidable, used for sorting time strings. -/
abbrev strLeP (a b : String) : Prop := strLe a b = true

/-- Does the first list occur as a leading segment of the second? -/
def listStarts : List Char → List Char → Bool
  | [], _ => true
  | _ :: _, [] => false
  | a :: as, b :: bs => a == b && listStarts as bs

/-- Model of Python `needle in hay`: contiguous-substring occurrence. -/
def listHasSub (needle : List Char) : List Char → Bool
  | [] => needle.isEmpty
  | c :: rest => listStarts needle (c :: rest) || listHasSub needle rest

/-- Substring test on strings (Python `a in b` with `a` the needle). -/
def strHasSub (needle hay : String) : Bool :=
  listHasSub needle.toList hay.toList

/-! ### Time-format validation (`helpers.validate_time_format`, and the
inline `datetime.strptime(t, "%H:%M")` checks of the medication and
appointment routes) -/

/-- ASCII decimal digit, the `\d` of the strptime regex. -/
def isDig (c : Char) : Bool :=
  48 ≤ c.toNat && c.toNat ≤ 57

/-- Numeric value of a digit character. -/
def dval (c : Char) : Nat := c.toNat - 48

/-- Two-character hour, the regex alternatives `2[0-3]|[0-1]\d`
(`'2'` is code 50, `'0'`–`'3'` are codes 48–51, `'0'`/`'1'` are 48/49). -/
def hourTwo (a b : Char) : Bool :=
  (a.toNat = 50 && (48 ≤ b.toNat && b.toNat ≤ 51)) ||
    ((a.toNat = 48 || a.toNat = 49) && isDig b)

/-- Two-character minute, the regex alternative `[0-5]\d`
(`'0'`–`'5'` are codes 48–53). -/
def minuteTwo (a b : Char) : Bool :=
  (48 ≤ a.toNat && a.toNat ≤ 53) && isDig b

/-- The anchored strptime match `(2[0-3]|[0-1]\d|\d):([0-5]\d|\d)` over a
character list: hour part is the digits before the `':'` (one digit free,
two digits constrained), minute part the digits after it. -/
def vtChars : List Char → Bool
  | [a, b, c] => isDig a && (b == ':') && isDig c
  | [a, b, c, d] =>
    (isDig a && (b == ':') && minuteTwo c d) ||
      (hourTwo a b && (c == ':') && isDig d)
  | [a, b, c, d, e] => hourTwo a b && (c == ':') && minuteTwo d e
  | _ => false

/-- Model of `validate_time_format` / `datetime.strptime(s, "%H:%M")`. -/
def validate_time_format (s : String) : Bool :=
  vtChars s.toList

/-! ### Spec-side time-format predicates (claim C7)

`specTimeStrict` formalises the claim's wording: exact `HH:MM` with a
two-digit hour 00–23 and a two-digit minute 00–59.  `specTimeLenient` is
the amended wording: hour and minute parts of one or two digits each,
separated by one `':'`, with numeric values at most 23 and 59.  Both are
written independently of the implementation (`specTimeLenient` splits the
string at the colon and compares numeric values). -/

/-- Claim C7 as stated: exact five-character `HH:MM`, two-digit fields. -/
def specTimeStrict (s : String) : Bool :=
  match s.toList with
  | [h1, h2, c, m1, m2] =>
    (c == ':') && isDig h1 && isDig h2 && isDig m1 && isDig m2 &&
      decide (10 * dval h1 + dval h2 ≤ 23) && decide (10 * dval m1 + dval m2 ≤ 59)
  | _ => false

/-- Split a character list at its first `':'`. -/
def breakColon : List Char → Option (List Char × List Char)
  | [] => none
  | c :: rest =>
    if c = ':' then some ([], rest)
    else
      match breakColon rest with
      | some (a, b) => some (c :: a, b)
      | none => none

/-- Are all characters decimal digits? -/
def allDigits (cs : List Char) : Bool := cs.all isDig

/-- Numeric value of a digit list (most significant first). -/
def digitsVal (cs : List Char) : Nat :=
  cs.foldl (fun acc c => 10 * acc + dval c) 0

/-- Amended claim C7 over a character list: the part before the first
`':'` is one or two digits with value at most 23, the part after it is
one or two digits with value at most 59, and nothing else is present. -/
def lenChars (l : List Char) : Bool :=
  match breakColon l with
  | none => false
  | some (hs, ms) =>
    allDigits hs && allDigits ms &&
      decide (1 ≤ hs.length) && decide (hs.length ≤ 2) &&
      decide (1 ≤ ms.length) && decide (ms.length ≤ 2) &&
      decide (digitsVal hs ≤ 23) && decide (digitsVal ms ≤ 59)

/-- Amended claim C7 on strings. -/
def specTimeLenient (s : String) : Bool :=
  lenChars s.toList

/-! ### Medication schedules (`routes/medication.py`) -/

/-- A stored medication schedule (timestamps omitted). -/
structure Medication where
  id : String
  patient : String
  drug_name : String
  times : List String
  dosage : String
  instructions : String
  status : String
  deriving DecidableEq

/-- JSON body of `POST /medication`; `none` marks an absent key. -/
structure MedReq where
  patient : Option String
  drug_name : Option String
  times : Option (List String)
  dosage : Option String
  instructions : Option String
  deriving DecidableEq

/-- JSON body of `PUT /medication/<id>`; `none` marks an absent key. -/
structure MedPatch where
  times : Option (List String)
  dosage : Option String
  instructions : Option String
  status : Option String
  deriving DecidableEq

/-- Model of `schedule_medication` (`POST /medication`): validate required fields,
non-empty names, non-empty times all in `%H:%M` format; sort the times
and append the schedule with status `"active"`.  Returns the HTTP status
code and the new store contents. -/
def schedule_medication (db : List Medication) (newId : String) (req : Option MedReq) :
    Nat × List Medication :=
  match req with
  | none => (400, db)
  | some r =>
    match r.patient, r.drug_name, r.times with
    | none, _, _ => (400, db)
    | some _, none, _ => (400, db)
    | some _, some _, none => (400, db)
    | some p0, some d0, some times =>
      let patient := strip p0
      let drug_name := strip d0
      let dosage := strip (r.dosage.getD "")
      let instructions := strip (r.instructions.getD "")
      if patient = "" ∨ drug_name = "" then (400, db)
      else if times.length = 0 then (400, db)
      else if times.any (fun t => !validate_time_format t) then (400, db)
      else
        (201, db ++ [⟨newId, patient, drug_name, List.insertionSort strLeP times,
          dosage, instructions, "active"⟩])

/-- First stored medication with the given id (the route's lookup loop). -/
def findById : List Medication → String → Option Medication
  | [], _ => none
  | m :: rest, i => if m.id = i then some m else findById rest i

/-- Replace the first stored medication with the given id (the route
mutates the found dictionary in place). -/
def replaceFirst : List Medication → String → Medication → List Medication
  | [], _, _ => []
  | m :: rest, i, nm => if m.id = i then nm :: rest else m :: replaceFirst rest i nm

/-- Model of `update_medication` (`PUT /medication/<id>`): look the entity up,
then apply the supplied fields in source order — times (validated, then
stored sorted), dosage, instructions, and finally status (validated
against the enum).  An invalid status aborts with 400 only after the
earlier fields have already been written back. -/
def update_medication (db : List Medication) (medId : String) (patch : Option MedPatch) :
    Nat × List Medication :=
  match patch with
  | none => (400, db)
  | some p =>
    match findById db medId with
    | none => (404, db)
    | some med =>
      match p.times with
      | some ts =>
        if ts.length = 0 then (400, db)
        else if ts.any (fun t => !validate_time_format t) then (400, db)
        else
          let med1 : Medication :=
            ⟨med.id, med.patient, med.drug_name, List.insertionSort strLeP ts,
              med.dosage, med.instructions, med.status⟩
          let med2 : Medication :=
            match p.dosage with
            | some d => ⟨med1.id, med1.patient, med1.drug_name, med1.times,
                strip d, med1.instructions, med1.status⟩
            | none => med1
          let med3 : Medication :=
            match p.instructions with
            | some ins => ⟨med2.id, med2.patient, med2.drug_name, med2.times,
                med2.dosage, strip ins, med2.status⟩
            | none => med2
          match p.status with
          | some st =>
            let ns := lower st
            if ¬(ns = "active" ∨ ns = "paused" ∨ ns = "discontinued") then
              (400, replaceFirst db medId med3)
            else
              (200, replaceFirst db medId ⟨med3.id, med3.patient, med3.drug_name,
                med3.times, med3.dosage, med3.instructions, ns⟩)
          | none => (200, replaceFirst db medId med3)
      | none =>
        let med2 : Medication :=
          match p.dosage with
          | some d => ⟨med.id, med.patient, med.drug_name, med.times,
              strip d, med.instructions, med.status⟩
          | none => med
        let med3 : Medication :=
          match p.instructions with
          | some ins => ⟨med2.id, med2.patient, med2.drug_name, med2.times,
              med2.dosage, strip ins, med2.status⟩
          | none => med2
        match p.status with
        | some st =>
          let ns := lower st
          if ¬(ns = "active" ∨ ns = "paused" ∨ ns = "discontinued") then
            (400, replaceFirst db medId med3)
          else
            (200, replaceFirst db medId ⟨med3.id, med3.patient, med3.drug_name,
              med3.times, med3.dosage, med3.instructions, ns⟩)
        | none => (200, replaceFirst db medId med3)

/-- The medication times invariant claimed by the spec: never empty,
every element passes time-format validation, and sorted ascending. -/
def timesInv (m : Medication) : Prop :=
  m.times ≠ [] ∧ (∀ t ∈ m.times, validate_time_format t = true) ∧
    List.Sorted strLeP m.times

/-! ### Seizure logs and trend analysis (`routes/progress.py`) -/

/-- A stored seizure log (timestamps omitted; `occurred` is the 0/1
integer the route validates and sums). -/
structure SeizureLog where
  id : String
  patient : String
  date : String
  occurred : Int
  notes : String
  deriving DecidableEq

/-- JSON body of `POST /progress`; `none` marks an absent key. -/
structure LogReq where
  date : Option String
  occurred : Option Int
  patient : Option String
  notes : Option String
  deriving DecidableEq

/-- Model of `log_seizure` (`POST /progress`): required fields, non-empty patient,
`occurred ∈ {0,1}`, parseable non-future date, then the duplicate
`(patient, date)` check (409) before appending.  `pd` abstracts
`datetime.strptime(s, "%Y-%m-%d")` as a day number, `today` the
midnight of `datetime.now()`. -/
def log_seizure (db : List SeizureLog) (pd : String → Option Int) (today : Int)
    (newId : String) (req : Option LogReq) : Nat × List SeizureLog :=
  match req with
  | none => (400, db)
  | some r =>
    match r.date, r.occurred, r.patient with
    | none, _, _ => (400, db)
    | some _, none, _ => (400, db)
    | some _, some _, none => (400, db)
    | some date_str, some occurred, some rawPatient =>
      let patient := strip rawPatient
      let notes := strip (r.notes.getD "")
      if patient = "" then (400, db)
      else if ¬(occurred = 0 ∨ occurred = 1) then (400, db)
      else
        match pd date_str with
        | none => (400, db)
        | some log_date =>
          if today < log_date then (400, db)
          else if db.any (fun log => log.date == date_str && log.patient == patient) then
            (409, db)
          else (201, db ++ [⟨newId, patient, date_str, occurred, notes⟩])

/-- The route's patient filter: if the stripped query parameter is
non-empty, keep logs whose lower-cased patient name contains it. -/
def filteredLogs (db : List SeizureLog) (patientFilter : String) : List SeizureLog :=
  let pf := strip patientFilter
  if pf = "" then db
  else db.filter (fun log => strHasSub (lower pf) (lower log.patient))

/-- Is a log dated inside the trailing `days`-day window ending today?
(`start_date = today - timedelta(days=days)`, kept iff `date >= start`.) -/
def inWindow (pd : String → Option Int) (today days : Int) (log : SeizureLog) : Bool :=
  match pd log.date with
  | some d => decide (today - days ≤ d)
  | none => false

/-- Sum of the `occurred` field over a list of logs. -/
def sumOccurred (logs : List SeizureLog) : Int :=
  (logs.map (fun log => log.occurred)).sum

/-- Round to two decimal places (`round(x, 2)` on the seizure rate). -/
def roundTo2 (q : ℚ) : ℚ :=
  ((round (q * 100) : ℤ) : ℚ) / 100

/-- Descending-by-date order for the response's log list
(`sort(key=date, reverse=True)`). -/
abbrev dateGeP (a b : SeizureLog) : Prop := strLe b.date a.date = true

/-- The `summary` object of `GET /progress`; the last two fields are
absent (`none`) in the empty-history response. -/
structure ProgressSummary where
  total_seizures : Int
  seven_day_trend : Int
  progress : String
  seizure_rate : ℚ
  total_days_logged : Option Nat
  analysis_period_days : Option Int
  deriving DecidableEq

/-- Response of `GET /progress`: HTTP code, summary, and the log list. -/
structure ProgressResp where
  code : Nat
  summary : ProgressSummary
  logs : List SeizureLog
  deriving DecidableEq

/-- Model of `get_progress` (`GET /progress`): filter by patient, short-circuit on
an empty history, otherwise compute totals, the trailing-window trend,
the seizure rate, and the first-match-wins progress label. -/
def get_progress (db : List SeizureLog) (patientFilter : String) (days : Int)
    (pd : String → Option Int) (today : Int) : ProgressResp :=
  let filtered := filteredLogs db patientFilter
  if filtered = [] then ⟨200, ⟨0, 0, "No Data", 0, none, none⟩, []⟩
  else
    let total_seizures := sumOccurred filtered
    let recent_seizures := sumOccurred (filtered.filter (inWindow pd today days))
    let total_days := filtered.length
    let seizure_rate : ℚ :=
      if 0 < total_days then (total_seizures : ℚ) / (total_days : ℚ) * 100 else 0
    let progress :=
      if total_days < 7 then "Insufficient Data"
      else if recent_seizures = 0 then "Improving"
      else if (recent_seizures : ℚ) ≤
          (total_seizures : ℚ) / (total_days : ℚ) * (days : ℚ) * (1 / 2) then "Improving"
      else if (recent_seizures : ℚ) ≤
          (total_seizures : ℚ) / (total_days : ℚ) * (days : ℚ) * (6 / 5) then "Stable"
      else "Needs Attention"
    ⟨200, ⟨total_seizures, recent_seizures, progress, roundTo2 seizure_rate,
      some total_days, some days⟩, List.insertionSort dateGeP filtered⟩

/-- Claim C1's classification rule, as a function of the aggregates named
by the claim: number of logs, total seizures, seizures in the trailing
window, and the window length, evaluated in order with first match
winning. -/
def claimedProgressLabel (totalDays : Nat) (totalSeizures recentSeizures : Int)
    (days : Int) : String :=
  if totalDays < 7 then "Insufficient Data"
  else if recentSeizures = 0 then "Improving"
  else if (recentSeizures : ℚ) ≤
      (totalSeizures : ℚ) / (totalDays : ℚ) * (days : ℚ) * (1 / 2) then "Improving"
  else if (recentSeizures : ℚ) ≤
      (totalSeizures : ℚ) / (totalDays : ℚ) * (days : ℚ) * (6 / 5) then "Stable"
  else "Needs Attention"

/-- At most one log per `(patient, date)` pair. -/
def keyUnique (db : List SeizureLog) : Prop :=
  db.Pairwise (fun a b => ¬(a.patient = b.patient ∧ a.date = b.date))

/-! ### Appointments (`routes/appointments.py`) -/

/-- A stored appointment (timestamps omitted). -/
structure Appointment where
  id : String
  patient : String
  doctor : String
  date : String
  time : String
  status : String
  deriving DecidableEq

/-- JSON body of `POST /appointments`; `none` marks an absent key. -/
structure ApptReq where
  patient : Option String
  doctor : Option String
  date : Option String
  time : Option String
  deriving DecidableEq

/-- Model of `book_appointment` (`POST /appointments`): required fields, non-empty
names, parseable date not in the past, valid `%H:%M` time, then append
with status `"scheduled"`. -/
def book_appointment (db : List Appointment) (pd : String → Option Int) (today : Int)
    (newId : String) (req : Option ApptReq) : Nat × List Appointment :=
  match req with
  | none => (400, db)
  | some r =>
    match r.patient, r.doctor, r.date, r.time with
    | none, _, _, _ => (400, db)
    | some _, none, _, _ => (400, db)
    | some _, some _, none, _ => (400, db)
    | some _, some _, some _, none => (400, db)
    | some p0, some d0, some date_str, some time_str =>
      let patient := strip p0
      let doctor := strip d0
      if patient = "" ∨ doctor = "" then (400, db)
      else
        match pd date_str with
        | none => (400, db)
        | some appointment_date =>
          if appointment_date < today then (400, db)
          else if ¬ validate_time_format time_str then (400, db)
          else (201, db ++ [⟨newId, patient, doctor, date_str, time_str, "scheduled"⟩])

/-! ### Seizure-risk prediction (`routes/predict.py`) -/

/-- The ten warning messages for a positive prediction. -/
def SEIZURE_RISK_MESSAGES : List String :=
  ["Warning: Seizure may occur soon. Stay safe and alert.",
   "High seizure probability. Alert your caregiver if possible.",
   "Critical: Seizure risk detected. Please take immediate precautions.",
   "Danger: Brain activity indicates potential seizure. Seek medical attention.",
   "Alert: Seizure warning active. Avoid dangerous activities.",
   "Urgent: Seizure probability elevated. Contact your healthcare provider.",
   "Warning: Abnormal brain patterns detected. Stay in safe environment.",
   "High risk: Seizure indicators present. Take prescribed medication if available.",
   "Critical alert: Seizure may be imminent. Lie down in safe area.",
   "Emergency: Seizure risk confirmed. Call emergency services if needed."]

/-- The ten reassurance messages for a negative prediction. -/
def NORMAL_EEG_MESSAGES : List String :=
  ["Your brain activity looks stable.",
   "No seizure indicators present at the moment.",
   "EEG patterns appear normal and healthy.",
   "Brain activity is within safe parameters.",
   "No seizure risk detected in current readings.",
   "Your neurological activity is stable.",
   "EEG shows normal brain wave patterns.",
   "No concerning brain activity detected.",
   "Brain function appears to be normal.",
   "Seizure risk assessment: Low probability."]

/-- The opaque trained classifier: `predict` gives the class,
`predict_proba` the class-probability row. -/
structure EEGModel where
  predict : List ℚ → Int
  predict_proba : List ℚ → List ℚ

/-- Model of `numpy.max` over the probability row. -/
def listMax : List ℚ → ℚ
  | [] => 0
  | h :: t => t.foldl max h

/-- Model of `random.choice`, with the random draw abstracted as an index. -/
def choiceMsg (msgs : List String) (i : Nat) : String :=
  msgs.getD (i % msgs.length) ""

/-- Body of a successful prediction response. -/
structure PredictOk where
  status : String
  confidence : ℚ
  message : String
  prediction : Int
  deriving DecidableEq

/-- Prediction responses: success body, or an error code with its kind. -/
inductive PredictResp where
  | ok (r : PredictOk)
  | err (code : Nat) (kind : String)
  deriving DecidableEq

/-- Model of `predict_seizure` (`POST /predict`): model availability, feature
extraction (`none` = no features supplied), the exact-length-115 check,
then scaling and classification.  The second component records whether
`model.predict` was invoked.  `msgIdx` abstracts the random draw. -/
def predict_seizure (modelLoaded : Bool) (m : EEGModel) (scaler : List ℚ → List ℚ)
    (msgIdx : Nat) (features : Option (List ℚ)) : PredictResp × Bool :=
  if ¬ modelLoaded then (.err 500 "Model not available", false)
  else
    match features with
    | none => (.err 400 "Invalid input", false)
    | some fs =>
      if fs.length ≠ 115 then (.err 400 "Invalid features", false)
      else
        let scaled := scaler fs
        let prediction := m.predict scaled
        let confidence := listMax (m.predict_proba scaled)
        if prediction = 1 then
          (.ok ⟨"High seizure risk", confidence, choiceMsg SEIZURE_RISK_MESSAGES msgIdx,
            prediction⟩, true)
        else
          (.ok ⟨"Normal EEG pattern", confidence, choiceMsg NORMAL_EEG_MESSAGES msgIdx,
            prediction⟩, true)

/-- A prediction response with its message blanked out: the projection
claim C8 asserts is independent of the random draw. -/
def respCore : PredictResp → PredictResp
  | .ok r => .ok ⟨r.status, r.confidence, "", r.prediction⟩
  | .err c k => .err c k

/-! ### Helper lemmas -/

/-- Totality of the code-point lexicographic order. -/
theorem charsLe_total : ∀ a b : List Char, charsLe a b = true ∨ charsLe b a = true := by
  intro a
  induction a with
  | nil => intro b; exact Or.inl rfl
  | cons x xs ih =>
    intro b
    cases b with
    | nil => exact Or.inr rfl
    | cons y ys =>
      by_cases h1 : x.toNat < y.toNat
      · exact Or.inl (by simp [charsLe, h1])
      · by_cases h2 : y.toNat < x.toNat
        · exact Or.inr (by simp [charsLe, h1, h2])
        · rcases ih ys with h3 | h3
          · exact Or.inl (by simp [charsLe, h1, h2, h3])
          · exact Or.inr (by simp [charsLe, h1, h2, h3])

/-- Transitivity of the code-point lexicographic order. -/
theorem charsLe_trans : ∀ a b c : List Char,
    charsLe a b = true → charsLe b c = true → charsLe a c = true := by
  intro a
  induction a with
  | nil => intro b c _ _; rfl
  | cons x xs ih =>
    intro b c hab hbc
    cases b with
    | nil => simp [charsLe] at hab
    | cons y ys =>
      cases c with
      | nil => simp [charsLe] at hbc
      | cons z zs =>
        simp only [charsLe] at hab hbc ⊢
        by_cases h1 : x.toNat < y.toNat <;> by_cases h2 : y.toNat < z.toNat <;>
          simp [h1, h2] at hab hbc ⊢ <;>
          by_cases h3 : x.toNat < z.toNat <;> simp [h3] <;> try omega
        exact ⟨by omega, ih ys zs hab.2 hbc.2⟩

/-- Elements of `replaceFirst db i nm` are `nm` or old elements. -/
theorem replaceFirst_mem : ∀ (db : List Medication) (i : String) (nm x : Medication),
    x ∈ replaceFirst db i nm → x = nm ∨ x ∈ db := by
  intro db
  induction db with
  | nil => intro i nm x hx; simp [replaceFirst] at hx
  | cons m rest ih =>
    intro i nm x hx
    by_cases hid : m.id = i
    · simp [replaceFirst, hid] at hx
      rcases hx with hx | hx
      · exact Or.inl hx
      · exact Or.inr (List.mem_cons_of_mem m hx)
    · simp [replaceFirst, hid] at hx
      rcases hx with hx | hx
      · exact Or.inr (by simp [hx])
      · rcases ih i nm x hx with h | h
        · exact Or.inl h
        · exact Or.inr (List.mem_cons_of_mem m h)

/-- A successful colon split accounts for the whole list. -/
theorem breakColon_length : ∀ (l hs ms : List Char),
    breakColon l = some (hs, ms) → l.length = hs.length + ms.length + 1 := by
  intro l
  induction l with
  | nil => intro hs ms h; simp [breakColon] at h
  | cons c rest ih =>
    intro hs ms h
    by_cases hc : c = ':'
    · simp [breakColon, hc] at h
      obtain ⟨h1, h2⟩ := h
      subst h1; subst h2; simp
    · simp [breakColon, hc] at h
      rcases hbr : breakColon rest with _ | ⟨a, b⟩
      · rw [hbr] at h; simp at h
      · rw [hbr] at h
        simp at h
        obtain ⟨h1, h2⟩ := h
        subst h1; subst h2
        have := ih a b hbr
        simp [List.length_cons, this]
        omega

/-- A string passing the amended-claim check has at most five characters. -/
theorem lenChars_length (l : List Char) (h : lenChars l = true) : l.length ≤ 5 := by
  unfold lenChars at h
  rcases hbr : breakColon l with _ | ⟨hs, ms⟩ <;> rw [hbr] at h
  · simp at h
  · simp only [Bool.and_eq_true, decide_eq_true_eq] at h
    have := breakColon_length l hs ms hbr
    omega

/-- The two-digit-hour pattern is exactly: two digits with value ≤ 23. -/
theorem hourTwo_iff (a b : Char) :
    hourTwo a b = true ↔ (isDig a = true ∧ isDig b = true ∧ 10 * dval a + dval b ≤ 23) := by
  simp only [hourTwo, isDig, dval, Bool.or_eq_true, Bool.and_eq_true, decide_eq_true_eq]
  omega

/-- The two-digit-minute pattern is exactly: two digits with value ≤ 59. -/
theorem minuteTwo_iff (a b : Char) :
    minuteTwo a b = true ↔ (isDig a = true ∧ isDig b = true ∧ 10 * dval a + dval b ≤ 59) := by
  simp only [minuteTwo, isDig, dval, Bool.and_eq_true, decide_eq_true_eq]
  omega

/-- A digit character is not the colon (code 58). -/
theorem isDig_ne_colon {c : Char} (h : isDig c = true) : ¬(c = ':') := by
  intro hc
  subst hc
  simp [isDig] at h

/-- The colon is not a digit. -/
theorem isDig_colon : isDig ':' = false := by decide

/-- A colon cannot start a two-digit hour. -/
theorem hourTwo_colon_left (b : Char) : hourTwo ':' b = false := by
  have h58 : (':').toNat = 58 := by decide
  simp [hourTwo, h58, isDig]

/-- A colon cannot end a two-digit hour. -/
theorem hourTwo_colon_right (a : Char) : hourTwo a ':' = false := by
  have h58 : (':').toNat = 58 := by decide
  simp [hourTwo, h58, isDig]

/-- A colon cannot start a two-digit minute. -/
theorem minuteTwo_colon_left (b : Char) : minuteTwo ':' b = false := by
  have h58 : (':').toNat = 58 := by decide
  simp [minuteTwo, h58]

/-- A colon cannot end a two-digit minute. -/
theorem minuteTwo_colon_right (a : Char) : minuteTwo a ':' = false := by
  simp [minuteTwo, isDig_colon]

/-- The strptime `%H:%M` matcher agrees with the numeric
characterisation: one or two digits up to 23, a colon, one or two digits
up to 59. -/
theorem vtChars_iff_lenChars (l : List Char) : vtChars l = true ↔ lenChars l = true := by
  rcases l with _ | ⟨c1, _ | ⟨c2, _ | ⟨c3, _ | ⟨c4, _ | ⟨c5, _ | ⟨c6, rest⟩⟩⟩⟩⟩⟩
  · simp [vtChars, lenChars, breakColon]
  · by_cases h1 : c1 = ':'
    · subst h1; simp [vtChars, lenChars, breakColon]
    · simp [vtChars, lenChars, breakColon, h1]
  · by_cases h1 : c1 = ':'
    · subst h1; simp [vtChars, lenChars, breakColon]
    · by_cases h2 : c2 = ':'
      · subst h2; simp [vtChars, lenChars, breakColon, h1]
      · simp [vtChars, lenChars, breakColon, h1, h2]
  · by_cases h1 : c1 = ':'
    · subst h1; simp [vtChars, lenChars, breakColon, isDig_colon]
    · by_cases h2 : c2 = ':'
      · subst h2
        simp [vtChars, lenChars, breakColon, h1, allDigits, digitsVal, isDig, dval]
        try omega
      · by_cases h3 : c3 = ':'
        · subst h3; simp [vtChars, lenChars, breakColon, h1, h2, isDig_colon]
        · simp [vtChars, lenChars, breakColon, h1, h2, h3]
  · by_cases h1 : c1 = ':'
    · subst h1
      simp [vtChars, lenChars, breakColon, isDig_colon, hourTwo_colon_left]
    · by_cases h2 : c2 = ':'
      · subst h2
        simp [vtChars, lenChars, breakColon, h1, hourTwo_colon_right, allDigits,
          digitsVal, minuteTwo, isDig, dval]
        try omega
      · by_cases h3 : c3 = ':'
        · subst h3
          simp [vtChars, lenChars, breakColon, h1, h2, allDigits, digitsVal,
            hourTwo, isDig, dval]
          try omega
        · by_cases h4 : c4 = ':'
          · subst h4
            simp [vtChars, lenChars, breakColon, h1, h2, h3, isDig_colon]
          · simp [vtChars, lenChars, breakColon, h1, h2, h3, h4]
  · by_cases h1 : c1 = ':'
    · subst h1
      simp [vtChars, lenChars, breakColon, hourTwo_colon_left]
    · by_cases h2 : c2 = ':'
      · subst h2
        simp [vtChars, lenChars, breakColon, h1, hourTwo_colon_right]
      · by_cases h3 : c3 = ':'
        · subst h3
          simp [vtChars, lenChars, breakColon, h1, h2, allDigits, digitsVal,
            hourTwo, minuteTwo, isDig, dval]
          try omega
        · by_cases h4 : c4 = ':'
          · subst h4
            simp [vtChars, lenChars, breakColon, h1, h2, h3]
          · by_cases h5 : c5 = ':'
            · subst h5
              simp [vtChars, lenChars, breakColon, h1, h2, h3, h4, minuteTwo_colon_right]
            · simp [vtChars, lenChars, breakColon, h1, h2, h3, h4, h5]
  · constructor
    · intro h
      rw [show vtChars (c1 :: c2 :: c3 :: c4 :: c5 :: c6 :: rest) = false from rfl] at h
      exact absurd h (by simp)
    · intro h
      have hlen := lenChars_length _ h
      simp [List.length_cons] at hlen

/-! ### Claim theorems -/

/-- C7 (counterexample): the claim states the time validator accepts only
the exact two-digit `HH:MM` form, but the code (CPython strptime)
accepts the one-digit hour `"8:00"`. -/
theorem time_validator_strict_counterexample :
    validate_time_format "8:00" = true ∧ specTimeStrict "8:00" = false := by
  decide

/-- C7 (amended): for every string `s`, the time validator returns true
iff `s` is `H:M` with an hour part of one digit, or two digits with
value 00–23, and a minute part of one digit, or two digits with value
00–59 (one-digit hours and minutes are accepted; nothing else is). -/
theorem time_validator_amended (s : String) :
    validate_time_format s = true ↔ specTimeLenient s = true :=
  vtChars_iff_lenChars s.toList

/-- C8: for any two runs of the prediction endpoint on the same features
with the same model but different random draws for the message, the
responses agree on everything except the message: status, confidence
and prediction are identical. -/
theorem predict_core_ignores_random (loaded : Bool) (m : EEGModel)
    (scaler : List ℚ → List ℚ) (i j : Nat) (features : Option (List ℚ)) :
    respCore (predict_seizure loaded m scaler i features).1 =
      respCore (predict_seizure loaded m scaler j features).1 := by
  unfold predict_seizure
  by_cases hl : loaded
  · rcases features with _ | fs
    · simp [hl]
    · by_cases hlen : fs.length = 115
      · by_cases hp : m.predict (scaler fs) = 1 <;>
          simp [hl, hlen, hp, respCore]
      · simp [hl, hlen]
  · simp [hl]

/-- C2: a feature list whose length is not 115 yields the 400
invalid-features error, and the model is never invoked (the invocation
flag of the embedding stays false). -/
theorem predict_wrong_length_rejected (m : EEGModel) (scaler : List ℚ → List ℚ)
    (idx : Nat) (fs : List ℚ) (h : fs.length ≠ 115) :
    predict_seizure true m scaler idx (some fs) = (.err 400 "Invalid features", false) := by
  simp [predict_seizure, h]

/-- Witness for C2 at a concrete 114-element vector. -/
theorem predict_wrong_length_rejected_witness :
    (List.replicate 114 (0 : ℚ)).length ≠ 115 ∧
      predict_seizure true ⟨fun _ => 1, fun _ => [1]⟩ (fun v => v) 0
          (some (List.replicate 114 (0 : ℚ))) =
        (.err 400 "Invalid features", false) :=
  ⟨by decide,
   predict_wrong_length_rejected ⟨fun _ => 1, fun _ => [1]⟩ (fun v => v) 0
     (List.replicate 114 (0 : ℚ)) (by decide)⟩

/-- C3: with a loaded model and a 115-element vector, model output 1
maps to status "High seizure risk" and prediction 1, output 0 maps to
"Normal EEG pattern" and prediction 0, and in both cases the confidence
is the maximum class probability returned by the model. -/
theorem predict_maps_model_output (m : EEGModel) (scaler : List ℚ → List ℚ)
    (idx : Nat) (fs : List ℚ) (h : fs.length = 115) :
    (m.predict (scaler fs) = 1 →
      predict_seizure true m scaler idx (some fs) =
        (.ok ⟨"High seizure risk", listMax (m.predict_proba (scaler fs)),
          choiceMsg SEIZURE_RISK_MESSAGES idx, 1⟩, true)) ∧
    (m.predict (scaler fs) = 0 →
      predict_seizure true m scaler idx (some fs) =
        (.ok ⟨"Normal EEG pattern", listMax (m.predict_proba (scaler fs)),
          choiceMsg NORMAL_EEG_MESSAGES idx, 0⟩, true)) := by
  constructor <;> intro hp <;> simp [predict_seizure, h, hp]

/-- Witness for C3: a constant classifier answering 1 with probability
row `[1]` on a concrete 115-element vector. -/
theorem predict_maps_model_output_witness :
    (List.replicate 115 (0 : ℚ)).length = 115 ∧
      predict_seizure true ⟨fun _ => 1, fun _ => [1]⟩ (fun v => v) 0
          (some (List.replicate 115 (0 : ℚ))) =
        (.ok ⟨"High seizure risk", 1,
          "Warning: Seizure may occur soon. Stay safe and alert.", 1⟩, true) :=
  ⟨by decide,
   (predict_maps_model_output ⟨fun _ => 1, fun _ => [1]⟩ (fun v => v) 0
     (List.replicate 115 (0 : ℚ)) (by decide)).1 rfl⟩

/-- C1: for every non-empty filtered history, the progress label equals
the claimed first-match-wins classification of the aggregates: number of
logged days, total seizures, and seizures dated within the trailing
`days`-day window. -/
theorem trend_label_claim (db : List SeizureLog) (pf : String) (days : Int)
    (pd : String → Option Int) (today : Int)
    (hne : filteredLogs db pf ≠ []) :
    (get_progress db pf days pd today).summary.progress =
      claimedProgressLabel (filteredLogs db pf).length
        (sumOccurred (filteredLogs db pf))
        (sumOccurred ((filteredLogs db pf).filter (inWindow pd today days)))
        days := by
  simp only [get_progress, claimedProgressLabel]
  rw [if_neg hne]

/-- Witness for C1: ten logs for Alice, none of them seizures, all
inside the window — the label situation of the spec's "10 days logged,
0 occurrences in the last 7" example. -/
theorem trend_label_claim_witness :
    filteredLogs (List.replicate 10 ⟨"1", "Alice", "2024-01-01", 0, ""⟩) "" ≠ [] ∧
      (get_progress (List.replicate 10 ⟨"1", "Alice", "2024-01-01", 0, ""⟩) "" 7
          (fun _ => some 0) 0).summary.progress =
        claimedProgressLabel
          (filteredLogs (List.replicate 10 ⟨"1", "Alice", "2024-01-01", 0, ""⟩) "").length
          (sumOccurred (filteredLogs (List.replicate 10 ⟨"1", "Alice", "2024-01-01", 0, ""⟩) ""))
          (sumOccurred ((filteredLogs (List.replicate 10 ⟨"1", "Alice", "2024-01-01", 0, ""⟩)
            "").filter (inWindow (fun _ => some 0) 0 7)))
          7 :=
  ⟨by decide,
   trend_label_claim (List.replicate 10 ⟨"1", "Alice", "2024-01-01", 0, ""⟩) "" 7
     (fun _ => some 0) 0 (by decide)⟩

/-- C6: an empty filtered history yields the fixed No Data summary:
progress "No Data", seizure rate 0.0, both counts 0, no logs, and no
`total_days_logged` / `analysis_period_days` keys. -/
theorem empty_history_no_data (db : List SeizureLog) (pf : String) (days : Int)
    (pd : String → Option Int) (today : Int)
    (he : filteredLogs db pf = []) :
    get_progress db pf days pd today = ⟨200, ⟨0, 0, "No Data", 0, none, none⟩, []⟩ := by
  simp [get_progress, he]

/-- Witness for C6: a store holding only a log for Bob, queried with the
patient filter "Alice". -/
theorem empty_history_no_data_witness :
    filteredLogs [⟨"1", "Bob", "2024-01-01", 1, ""⟩] "Alice" = [] ∧
      get_progress [⟨"1", "Bob", "2024-01-01", 1, ""⟩] "Alice" 7 (fun _ => some 0) 0 =
        ⟨200, ⟨0, 0, "No Data", 0, none, none⟩, []⟩ :=
  ⟨by decide,
   empty_history_no_data [⟨"1", "Bob", "2024-01-01", 1, ""⟩] "Alice" 7
     (fun _ => some 0) 0 (by decide)⟩

/-- C9: a booking request whose date parses strictly before today is
rejected with 400 and the store is unchanged, whatever the other fields
hold (every earlier validation failure is also a 400 that leaves the
store unchanged, and the append is unreachable past the date check). -/
theorem past_date_booking_rejected (db : List Appointment) (pd : String → Option Int)
    (today : Int) (newId : String) (req : ApptReq) (ds : String) (d : Int)
    (hds : req.date = some ds) (hpd : pd ds = some d) (hpast : d < today) :
    book_appointment db pd today newId (some req) = (400, db) := by
  rcases req with ⟨po, dco, dto, tio⟩
  simp only at hds
  subst hds
  rcases po with _ | p0
  · rfl
  rcases dco with _ | d0
  · rfl
  rcases tio with _ | t0
  · rfl
  simp only [book_appointment, hpd]
  simp [hpast]

/-- Witness for C9: booking yesterday's date with otherwise valid
fields against an empty store. -/
theorem past_date_booking_rejected_witness :
    (⟨some "Alice", some "Dr", some "2024-01-01", some "08:00"⟩ : ApptReq).date =
        some "2024-01-01" ∧
      (fun s => if s = "2024-01-01" then some (738885 : Int) else none) "2024-01-01" =
        some 738885 ∧
      (738885 : Int) < 738886 ∧
      book_appointment [] (fun s => if s = "2024-01-01" then some (738885 : Int) else none)
          738886 "a1" (some ⟨some "Alice", some "Dr", some "2024-01-01", some "08:00"⟩) =
        (400, []) :=
  ⟨rfl, by decide, by decide,
   past_date_booking_rejected [] (fun s => if s = "2024-01-01" then some (738885 : Int) else none)
     738886 "a1" ⟨some "Alice", some "Dr", some "2024-01-01", some "08:00"⟩
     "2024-01-01" 738885 rfl (by decide) (by decide)⟩

/-- C4: creating a seizure log that duplicates the (patient, date) pair
of a stored one — with the other validations passing — returns 409 and
leaves the store exactly as it was; and every request preserves the
invariant that at most one log per (patient, date) pair exists. -/
theorem duplicate_log_conflict :
    (∀ (db : List SeizureLog) (pd : String → Option Int) (today : Int) (newId : String)
        (ds : String) (oc : Int) (p0 : String) (nt : Option String) (d : Int),
        strip p0 ≠ "" → (oc = 0 ∨ oc = 1) → pd ds = some d → ¬(today < d) →
        (db.any fun log => log.date == ds && log.patient == strip p0) = true →
        log_seizure db pd today newId (some ⟨some ds, some oc, some p0, nt⟩) = (409, db)) ∧
    (∀ (db : List SeizureLog) (pd : String → Option Int) (today : Int) (newId : String)
        (req : Option LogReq), keyUnique db →
        keyUnique (log_seizure db pd today newId req).2) := by
  constructor
  · intro db pd today newId ds oc p0 nt d hp hoc hpd hfut hdup
    simp only [log_seizure]
    rw [if_neg hp, if_neg (by simp [hoc] : ¬¬(oc = 0 ∨ oc = 1)), hpd]
    simp only [if_neg hfut, if_pos hdup]
  · intro db pd today newId req hdb
    rcases req with _ | ⟨dso, oco, po, no⟩
    · exact hdb
    rcases dso with _ | ds
    · exact hdb
    rcases oco with _ | oc
    · exact hdb
    rcases po with _ | p0
    · exact hdb
    simp only [log_seizure]
    by_cases h1 : strip p0 = ""
    · rw [if_pos h1]; exact hdb
    rw [if_neg h1]
    by_cases h2 : ¬(oc = 0 ∨ oc = 1)
    · rw [if_pos h2]; exact hdb
    rw [if_neg h2]
    rcases hpd : pd ds with _ | d
    · exact hdb
    dsimp only
    by_cases h3 : today < d
    · rw [if_pos h3]; exact hdb
    rw [if_neg h3]
    by_cases h4 : (db.any fun log => log.date == ds && log.patient == strip p0) = true
    · rw [if_pos h4]; exact hdb
    rw [if_neg h4]
    dsimp only
    unfold keyUnique at hdb ⊢
    rw [List.pairwise_append]
    refine ⟨hdb, List.pairwise_singleton _ _, ?_⟩
    intro a ha b hb
    simp only [List.mem_singleton] at hb
    subst hb
    simp only [List.any_eq_true, Bool.and_eq_true, beq_iff_eq] at h4
    push_neg at h4
    intro hcon
    exact h4 a ha hcon.2 hcon.1

/-- Witness for C4: logging Alice on a date already logged for Alice. -/
theorem duplicate_log_conflict_witness :
    strip "Alice" ≠ "" ∧
      log_seizure [⟨"1", "Alice", "2024-01-01", 1, ""⟩] (fun _ => some 0) 0 "2"
          (some ⟨some "2024-01-01", some 0, some "Alice", none⟩) =
        (409, [⟨"1", "Alice", "2024-01-01", 1, ""⟩]) ∧
      keyUnique (log_seizure [⟨"1", "Alice", "2024-01-01", 1, ""⟩] (fun _ => some 0) 0 "2"
          (some ⟨some "2024-01-01", some 0, some "Alice", none⟩)).2 :=
  ⟨by decide,
   duplicate_log_conflict.1 [⟨"1", "Alice", "2024-01-01", 1, ""⟩] (fun _ => some 0) 0 "2"
     "2024-01-01" 0 "Alice" none 0 (by decide) (Or.inl rfl) rfl (by decide) (by decide),
   duplicate_log_conflict.2 [⟨"1", "Alice", "2024-01-01", 1, ""⟩] (fun _ => some 0) 0 "2"
     (some ⟨some "2024-01-01", some 0, some "Alice", none⟩)
     (List.pairwise_singleton _ _)⟩

/-- Lookup success implies membership. -/
theorem findById_mem : ∀ (db : List Medication) (i : String) (m : Medication),
    findById db i = some m → m ∈ db := by
  intro db
  induction db with
  | nil => intro i m h; simp [findById] at h
  | cons x rest ih =>
    intro i m h
    by_cases hx : x.id = i
    · simp [findById, hx] at h
      simp [h]
    · simp [findById, hx] at h
      exact List.mem_cons_of_mem x (ih i m h)

/-- Sorting a non-empty list of validated time strings yields a
non-empty, validated, sorted list. -/
theorem insertionSort_timesInv (ts : List String) (hne : ts ≠ [])
    (hv : ∀ t ∈ ts, validate_time_format t = true) :
    List.insertionSort strLeP ts ≠ [] ∧
      (∀ t ∈ List.insertionSort strLeP ts, validate_time_format t = true) ∧
      List.Sorted strLeP (List.insertionSort strLeP ts) := by
  have hperm := List.perm_insertionSort strLeP ts
  refine ⟨?_, ?_, ?_⟩
  · intro h
    rw [h] at hperm
    exact hne (List.Perm.nil_eq hperm).symm
  · intro t ht
    exact hv t (hperm.mem_iff.mp ht)
  · have htot : IsTotal String strLeP :=
      ⟨fun a b => charsLe_total a.toList b.toList⟩
    have htr : IsTrans String strLeP :=
      ⟨fun a b c hab hbc => charsLe_trans a.toList b.toList c.toList hab hbc⟩
    exact @List.sorted_insertionSort String strLeP _ htot htr ts

/-- Replacing one entry by an invariant-satisfying one preserves the
store-wide times invariant. -/
theorem timesInv_replace (db : List Medication) (medId : String) (mX : Medication)
    (hdb : ∀ m ∈ db, timesInv m) (hX : timesInv mX) :
    ∀ m ∈ replaceFirst db medId mX, timesInv m := by
  intro m hm
  rcases replaceFirst_mem db medId mX m hm with h | h
  · exact h ▸ hX
  · exact hdb m h

/-- A failed any-invalid check means every element validates. -/
theorem all_times_valid (ts : List String)
    (h : ¬(ts.any (fun t => !validate_time_format t) = true)) :
    ∀ t ∈ ts, validate_time_format t = true := by
  intro t ht
  by_contra hf
  exact h (List.any_eq_true.mpr ⟨t, ht, by simp [Bool.not_eq_true'] at hf ⊢; exact hf⟩)

/-- C5: (creation) a valid medication creation stores exactly the input
times sorted ascending — a sorted permutation of the input — and
(invariant) after any create or update, every stored schedule has a
non-empty, fully validated, ascending-sorted times list. -/
theorem medication_times_invariant :
    (∀ (db : List Medication) (newId p0 d0 : String) (ts : List String)
        (dos ins : Option String),
        strip p0 ≠ "" → strip d0 ≠ "" → ts ≠ [] →
        (∀ t ∈ ts, validate_time_format t = true) →
        schedule_medication db newId (some ⟨some p0, some d0, some ts, dos, ins⟩) =
          (201, db ++ [⟨newId, strip p0, strip d0, List.insertionSort strLeP ts,
            strip (dos.getD ""), strip (ins.getD ""), "active"⟩]) ∧
        (List.insertionSort strLeP ts).Perm ts ∧
        List.Sorted strLeP (List.insertionSort strLeP ts)) ∧
    (∀ (db : List Medication) (newId : String) (req : Option MedReq),
        (∀ m ∈ db, timesInv m) →
        ∀ m ∈ (schedule_medication db newId req).2, timesInv m) ∧
    (∀ (db : List Medication) (medId : String) (patch : Option MedPatch),
        (∀ m ∈ db, timesInv m) →
        ∀ m ∈ (update_medication db medId patch).2, timesInv m) := by
  refine ⟨?_, ?_, ?_⟩
  · intro db newId p0 d0 ts dos ins hp hd hne hv
    have hc1 : ¬(strip p0 = "" ∨ strip d0 = "") := by tauto
    have hc2 : ¬(ts.length = 0) := by simpa [List.length_eq_zero] using hne
    have hc3 : ¬(ts.any (fun t => !validate_time_format t) = true) := by
      intro hcon
      simp only [List.any_eq_true, Bool.not_eq_true'] at hcon
      obtain ⟨t, ht, hf⟩ := hcon
      rw [hv t ht] at hf
      cases hf
    refine ⟨?_, List.perm_insertionSort strLeP ts, (insertionSort_timesInv ts hne hv).2.2⟩
    simp only [schedule_medication]
    rw [if_neg hc1, if_neg hc2, if_neg hc3]
  · intro db newId req hdb m hm
    rcases req with _ | ⟨po, dno, tso, dso, iso⟩
    · exact hdb m hm
    rcases po with _ | p0
    · exact hdb m hm
    rcases dno with _ | d0
    · exact hdb m hm
    rcases tso with _ | ts
    · exact hdb m hm
    simp only [schedule_medication] at hm
    by_cases h1 : strip p0 = "" ∨ strip d0 = ""
    · rw [if_pos h1] at hm; exact hdb m hm
    rw [if_neg h1] at hm
    by_cases h2 : ts.length = 0
    · rw [if_pos h2] at hm; exact hdb m hm
    rw [if_neg h2] at hm
    by_cases h3 : ts.any (fun t => !validate_time_format t) = true
    · rw [if_pos h3] at hm; exact hdb m hm
    rw [if_neg h3] at hm
    dsimp only at hm
    rcases List.mem_append.mp hm with h | h
    · exact hdb m h
    · simp only [List.mem_singleton] at h
      subst h
      have hne : ts ≠ [] := by simpa [List.length_eq_zero] using h2
      exact insertionSort_timesInv ts hne (all_times_valid ts h3)
  · intro db medId patch hdb m hm
    rcases patch with _ | ⟨tso, dso, iso, sto⟩
    · exact hdb m hm
    rcases hfind : findById db medId with _ | med
    · simp only [update_medication, hfind] at hm
      exact hdb m hm
    have hmed : timesInv med := hdb med (findById_mem db medId med hfind)
    simp only [update_medication, hfind] at hm
    rcases tso with _ | ts
    · rcases sto with _ | st0
      · dsimp only at hm
        rcases dso with _ | ds0 <;> rcases iso with _ | is0 <;> dsimp only at hm <;>
          (refine timesInv_replace db medId _ hdb ?_ m hm; exact hmed)
      · dsimp only at hm
        by_cases hst : ¬(lower st0 = "active" ∨ lower st0 = "paused" ∨
            lower st0 = "discontinued")
        · rw [if_pos hst] at hm
          dsimp only at hm
          rcases dso with _ | ds0 <;> rcases iso with _ | is0 <;> dsimp only at hm <;>
            (refine timesInv_replace db medId _ hdb ?_ m hm; exact hmed)
        · rw [if_neg hst] at hm
          dsimp only at hm
          rcases dso with _ | ds0 <;> rcases iso with _ | is0 <;> dsimp only at hm <;>
            (refine timesInv_replace db medId _ hdb ?_ m hm; exact hmed)
    · dsimp only at hm
      by_cases h2 : ts.length = 0
      · rw [if_pos h2] at hm; exact hdb m hm
      rw [if_neg h2] at hm
      by_cases h3 : ts.any (fun t => !validate_time_format t) = true
      · rw [if_pos h3] at hm; exact hdb m hm
      rw [if_neg h3] at hm
      have hX := insertionSort_timesInv ts (by simpa [List.length_eq_zero] using h2)
        (all_times_valid ts h3)
      rcases sto with _ | st0
      · dsimp only at hm
        rcases dso with _ | ds0 <;> rcases iso with _ | is0 <;> dsimp only at hm <;>
          (refine timesInv_replace db medId _ hdb ?_ m hm; exact hX)
      · dsimp only at hm
        by_cases hst : ¬(lower st0 = "active" ∨ lower st0 = "paused" ∨
            lower st0 = "discontinued")
        · rw [if_pos hst] at hm
          dsimp only at hm
          rcases dso with _ | ds0 <;> rcases iso with _ | is0 <;> dsimp only at hm <;>
            (refine timesInv_replace db medId _ hdb ?_ m hm; exact hX)
        · rw [if_neg hst] at hm
          dsimp only at hm
          rcases dso with _ | ds0 <;> rcases iso with _ | is0 <;> dsimp only at hm <;>
            (refine timesInv_replace db medId _ hdb ?_ m hm; exact hX)

/-- Witness for C5: creating with times `["20:00","08:00"]` stores
`["08:00","20:00"]`, and an update on a concrete store preserves the
times invariant. -/
theorem medication_times_invariant_witness :
    strip "Alice" ≠ "" ∧ strip "Keppra" ≠ "" ∧ (["20:00", "08:00"] : List String) ≠ [] ∧
      (∀ t ∈ (["20:00", "08:00"] : List String), validate_time_format t = true) ∧
      schedule_medication [] "m1" (some ⟨some "Alice", some "Keppra",
          some ["20:00", "08:00"], none, none⟩) =
        (201, [⟨"m1", strip "Alice", strip "Keppra",
          List.insertionSort strLeP ["20:00", "08:00"], strip "", strip "", "active"⟩]) ∧
      List.insertionSort strLeP ["20:00", "08:00"] = ["08:00", "20:00"] ∧
      (∀ m ∈ (update_medication [⟨"m1", "Alice", "Keppra", ["08:00"], "", "", "active"⟩]
          "m1" (some ⟨some ["20:00", "08:00"], none, none, none⟩)).2, timesInv m) := by
  refine ⟨by decide, by decide, by decide, by decide, ?_, by decide, ?_⟩
  · exact (medication_times_invariant.1 [] "m1" "Alice" "Keppra" ["20:00", "08:00"] none none
      (by decide) (by decide) (by decide) (by decide)).1
  · refine medication_times_invariant.2.2 [⟨"m1", "Alice", "Keppra", ["08:00"], "", "", "active"⟩]
      "m1" (some ⟨some ["20:00", "08:00"], none, none, none⟩) ?_
    intro m hm
    simp only [List.mem_singleton] at hm
    subst hm
    exact ⟨by decide, by decide, List.sorted_singleton _⟩

/-- C10: an update whose patch carries valid times, dosage and
instructions together with an invalid status returns 400, yet the
stored entity has already absorbed the times (sorted), dosage and
instructions — only the status is left unchanged; the partial update is
not atomic on error. -/
theorem med_update_status_not_atomic (db : List Medication) (medId : String)
    (med : Medication) (ts : List String) (dos ins st : String)
    (hfind : findById db medId = some med)
    (hne : ts ≠ []) (hv : ∀ t ∈ ts, validate_time_format t = true)
    (hst : ¬(lower st = "active" ∨ lower st = "paused" ∨ lower st = "discontinued")) :
    update_medication db medId (some ⟨some ts, some dos, some ins, some st⟩) =
      (400, replaceFirst db medId ⟨med.id, med.patient, med.drug_name,
        List.insertionSort strLeP ts, strip dos, strip ins, med.status⟩) := by
  have hc2 : ¬(ts.length = 0) := by simpa [List.length_eq_zero] using hne
  have hc3 : ¬(ts.any (fun t => !validate_time_format t) = true) := by
    intro hcon
    simp only [List.any_eq_true, Bool.not_eq_true'] at hcon
    obtain ⟨t, ht, hf⟩ := hcon
    rw [hv t ht] at hf
    cases hf
  simp only [update_medication, hfind]
  rw [if_neg hc2, if_neg hc3]
  rw [if_pos hst]

/-- Witness for C10: patching a concrete schedule with sortable times,
a dosage, instructions and the invalid status "Bogus": the response is
400 and the store shows the new times, dosage and instructions with the
old status "active". -/
theorem med_update_status_not_atomic_witness :
    findById [⟨"m1", "Alice", "Keppra", ["08:00"], "", "", "active"⟩] "m1" =
        some ⟨"m1", "Alice", "Keppra", ["08:00"], "", "", "active"⟩ ∧
      (["20:00", "08:00"] : List String) ≠ [] ∧
      (∀ t ∈ (["20:00", "08:00"] : List String), validate_time_format t = true) ∧
      ¬(lower "Bogus" = "active" ∨ lower "Bogus" = "paused" ∨
        lower "Bogus" = "discontinued") ∧
      update_medication [⟨"m1", "Alice", "Keppra", ["08:00"], "", "", "active"⟩] "m1"
          (some ⟨some ["20:00", "08:00"], some " 500mg ", some " with food ", some "Bogus"⟩) =
        (400, replaceFirst [⟨"m1", "Alice", "Keppra", ["08:00"], "", "", "active"⟩] "m1"
          ⟨"m1", "Alice", "Keppra", List.insertionSort strLeP ["20:00", "08:00"],
            strip " 500mg ", strip " with food ", "active"⟩) ∧
      (update_medication [⟨"m1", "Alice", "Keppra", ["08:00"], "", "", "active"⟩] "m1"
          (some ⟨some ["20:00", "08:00"], some " 500mg ", some " with food ", some "Bogus"⟩)).2 =
        [⟨"m1", "Alice", "Keppra", ["08:00", "20:00"], "500mg", "with food", "active"⟩] := by
  refine ⟨by decide, by decide, by decide, by decide, ?_, by decide⟩
  exact med_update_status_not_atomic
    [⟨"m1", "Alice", "Keppra", ["08:00"], "", "", "active"⟩] "m1"
    ⟨"m1", "Alice", "Keppra", ["08:00"], "", "", "active"⟩
    ["20:00", "08:00"] " 500mg " " with food " "Bogus"
    (by decide) (by decide) (by decide) (by decide)
end Seizure
